import Mathlib

/-!
Verification of the rt-steamscraper review pipeline.

Shallow embedding of the Python sources:
  * steam_sentiment.py  — text segmentation (chunk_text, normalize_text,
    split_into_sentences, align_to_sentence_boundary), per-chunk analysis
    and the main counting loop;
  * steam_review_scraper.py — identity resolution of review cards, the
    cursor-paginated feed fetcher and the scraped/feed merge loop;
  * database_manager.py — save_review upsert semantics.

Python strings are modelled as List Char, Python ints as Int/Nat, dicts as
association lists or lookup functions, datetimes as Int (seconds), the
current clock as an explicit parameter, and raised exceptions as Option.
-/

/-- Python whitespace (the ASCII characters matched by the regex class
backslash-s and by str.isspace / str.strip): space, tab, newline,
carriage return, vertical tab, form feed. -/
def pyIsSpace (c : Char) : Bool :=
  c = ' ' || c = '\t' || c = '\n' || c = '\r' || c = Char.ofNat 11 || c = Char.ofNat 12

/-- The sentence-terminal punctuation characters of steam_sentiment.py
(the list sentence_endings and the regex class [.!?]). -/
def sentenceEndings : List Char := ['.', '!', '?']

/-- Python str.strip(): remove leading and trailing whitespace. -/
def pyStrip (s : List Char) : List Char :=
  ((s.dropWhile pyIsSpace).reverse.dropWhile pyIsSpace).reverse

/-- First substitution of normalize_text: collapse every maximal whitespace
run to a single space (re.sub of a whitespace run with a space); the single
space is emitted when the run's last character is reached. -/
def collapseWs : List Char → List Char
  | [] => []
  | c :: rest =>
    if pyIsSpace c then
      match rest with
      | [] => [' ']
      | d :: _ => if pyIsSpace d then collapseWs rest else ' ' :: collapseWs rest
    else c :: collapseWs rest

/-- Second substitution of normalize_text: delete every whitespace run that
immediately precedes a sentence-terminal punctuation character, keeping the
punctuation (re.sub of a whitespace run followed by [.!?] with the captured
punctuation character).  pendingRev is the reversed whitespace run read so
far; it is dropped when a sentence-terminal punctuation character follows
it, flushed otherwise. -/
def stripWsPunctAux (pendingRev : List Char) : List Char → List Char
  | [] => pendingRev.reverse
  | c :: rest =>
    if pyIsSpace c then stripWsPunctAux (c :: pendingRev) rest
    else if decide (c ∈ sentenceEndings) && !pendingRev.isEmpty then
      c :: stripWsPunctAux [] rest
    else pendingRev.reverse ++ c :: stripWsPunctAux [] rest

/-- The whole second substitution of normalize_text. -/
def stripWsPunct (s : List Char) : List Char := stripWsPunctAux [] s

/-- normalize_text: strip, collapse whitespace runs, then remove whitespace
before sentence-terminal punctuation. -/
def normalizeText (text : List Char) : List Char :=
  stripWsPunct (collapseWs (pyStrip text))

/-- ASCII upper-case letter (the regex class [A-Z]). -/
def asciiUpper (c : Char) : Bool := decide ('A' ≤ c) && decide (c ≤ 'Z')

/-- Scanner for split_into_sentences' regex split: a delimiter is a maximal
whitespace run whose preceding character is sentence-terminal punctuation
(lookbehind) and whose following character is an ASCII upper-case letter
(lookahead).  prevPunct records whether the character preceding the
current whitespace run is sentence-terminal punctuation; pendingRev is
that (reversed) whitespace run; accRev is the current piece, reversed. -/
def sentSplitAux (prevPunct : Bool) (accRev pendingRev : List Char) :
    List Char → List (List Char)
  | [] => [(pendingRev ++ accRev).reverse]
  | c :: rest =>
    if pyIsSpace c then sentSplitAux prevPunct accRev (c :: pendingRev) rest
    else if prevPunct && !pendingRev.isEmpty && asciiUpper c then
      accRev.reverse ::
        sentSplitAux (decide (c ∈ sentenceEndings)) [c] [] rest
    else
      sentSplitAux (decide (c ∈ sentenceEndings)) (c :: (pendingRev ++ accRev)) [] rest

/-- split_into_sentences: regex-split the text at sentence boundaries, then
strip each piece and drop empty pieces. -/
def splitIntoSentences (text : List Char) : List (List Char) :=
  ((sentSplitAux false [] [] text).map pyStrip).filter (fun s => !s.isEmpty)

/-- Python str.split() with no argument: the maximal runs of
non-whitespace characters, in order; curRev is the reversed
non-whitespace run currently being read. -/
def pySplitWsAux (curRev : List Char) : List Char → List (List Char)
  | [] => if curRev.isEmpty then [] else [curRev.reverse]
  | c :: rest =>
    if pyIsSpace c then
      if curRev.isEmpty then pySplitWsAux [] rest
      else curRev.reverse :: pySplitWsAux [] rest
    else pySplitWsAux (c :: curRev) rest

/-- Python str.split() with no argument. -/
def pySplitWs (s : List Char) : List (List Char) := pySplitWsAux [] s

/-- Python list slice words[i : j] for a non-negative start index i: a
negative stop index counts from the end, and both bounds clamp to the
list's length. -/
def pySliceStop (l : List (List Char)) (i : ℕ) (j : ℤ) : List (List Char) :=
  let stop : ℤ := if j < 0 then max ((l.length : ℤ) + j) 0 else min j (l.length : ℤ)
  (l.take stop.toNat).drop i

/-- Python range(0, stop, step) for a positive step: the multiples of step
below stop, in increasing order. -/
def pyRange (stop step : ℕ) : List ℕ :=
  (List.range ((stop + step - 1) / step)).map (· * step)

/-- The second half of align_to_sentence_boundary's cut condition, on the
backwards scan: the scan is still at the chunk's last character (prev =
none, the i = len − 1 case) or the character scanned just before, i.e. the
chunk character just after the current one, is whitespace. -/
def prevOk : Option Char → Bool
  | none => true
  | some p => pyIsSpace p

/-- align_to_sentence_boundary's backwards scan, expressed on the reversed
chunk: find the first (so, in the original chunk, rightmost) character that
is sentence-terminal punctuation and satisfies prevOk; return the reversed
prefix of the chunk ending there. -/
def alignRev (prev : Option Char) : List Char → Option (List Char)
  | [] => none
  | c :: rest =>
    if decide (c ∈ sentenceEndings) && prevOk prev then some (c :: rest)
    else alignRev (some c) rest

/-- align_to_sentence_boundary: truncate the chunk just after the rightmost
sentence-terminal punctuation character that ends the chunk or is followed
by whitespace; if there is none, return the chunk unchanged. -/
def alignToSentenceBoundary (chunk : List Char) : List Char :=
  match alignRev none chunk.reverse with
  | some revCut => revCut.reverse
  | none => chunk

/-- The chunk that the sliding-window branch of chunk_text builds from the
window starting at word index i: join the window's words with single
spaces, align to a sentence boundary, and strip. -/
def chunkAt (words : List (List Char)) (cs : ℤ) (i : ℕ) : List Char :=
  pyStrip (alignToSentenceBoundary
    (List.intercalate [' '] (pySliceStop words i ((i : ℤ) + cs))))

/-- chunk_text after its normalize_text call: if every sentence has at most
chunk_size words, the stripped non-empty sentences; otherwise slide a
window of chunk_size words with stride chunk_size − overlap, align each
window to a sentence boundary, strip it, and drop empty chunks.  A zero
stride is Python's range raising ValueError, modelled as none; a negative
stride makes range empty. -/
def chunkTextFromNormalized (t : List Char) (cs ov : ℤ) : Option (List (List Char)) :=
  let sentences := splitIntoSentences t
  if sentences.all (fun s => decide (((pySplitWs s).length : ℤ) ≤ cs)) then
    some ((sentences.map pyStrip).filter (fun s => !s.isEmpty))
  else
    let words := pySplitWs t
    if cs - ov = 0 then none
    else if cs - ov < 0 then some []
    else some (((pyRange words.length (cs - ov).toNat).map (chunkAt words cs)).filter
      (fun s => !s.isEmpty))

/-- chunk_text: normalize the text, then segment it. -/
def chunkText (text : List Char) (cs ov : ℤ) : Option (List (List Char)) :=
  chunkTextFromNormalized (normalizeText text) cs ov

/-- The guard of chunk_text's cheap path: every sentence of the normalized
text has at most chunk_size words. -/
def cheapPathGuard (t : List Char) (cs : ℤ) : Bool :=
  (splitIntoSentences t).all (fun s => decide (((pySplitWs s).length : ℤ) ≤ cs))

/-- The coverage property claimed for the sliding-window path: every word
index of the normalized text lies inside the word span of some emitted
(non-empty) chunk, where the chunk built from the window starting at word
i spans word indices i, i+1, ... up to i plus its own word count. -/
@[reducible] def chunkSpanCovers (text : List Char) (cs ov : ℤ) : Prop :=
  ∀ j < (pySplitWs (normalizeText text)).length,
    ∃ i ∈ pyRange (pySplitWs (normalizeText text)).length (cs - ov).toNat,
      i ≤ j ∧ j < i + (pySplitWs (chunkAt (pySplitWs (normalizeText text)) cs i)).length ∧
      chunkAt (pySplitWs (normalizeText text)) cs i ≠ []

/-- The three-valued sentiment enum of steam_sentiment.py. -/
inductive SentimentType where
  | positive
  | negative
  | neutral
deriving DecidableEq

/-- Python SentimentType(value): enum lookup by value; an unknown value
raises ValueError, modelled as none. -/
def sentimentOfString (s : String) : Option SentimentType :=
  if s = "positive" then some SentimentType.positive
  else if s = "negative" then some SentimentType.negative
  else if s = "neutral" then some SentimentType.neutral
  else none

/-- The JSON object returned by the external classifier for one chunk
(boundary shape, already parsed; the JSON number confidence is modelled
as a rational). -/
structure VerdictJson where
  sentiment : String
  confidence : ℚ
  category : String
  suggested_category : Option String
  tags : List String
deriving DecidableEq

/-- The AnalysisResult dataclass of steam_sentiment.py. -/
structure AnalysisResult where
  chunk : List Char
  sentiment : SentimentType
  confidence : ℚ
  category : String
  is_out_of_box : Bool
  suggested_category : Option String
  tags : List String
deriving DecidableEq

/-- TextAnalyzer._analyze_chunk given the classifier's parsed JSON reply:
constructing the sentiment enum raises on a value outside the three
allowed ones (none); every other field is taken over unchecked. -/
def analyzeChunk (chunk : List Char) (rj : VerdictJson) : Option AnalysisResult :=
  (sentimentOfString rj.sentiment).map (fun st =>
    { chunk := chunk
      sentiment := st
      confidence := rj.confidence
      category := rj.category
      is_out_of_box := decide (rj.category = "out-of-box")
      suggested_category := rj.suggested_category
      tags := rj.tags })

/-- TextAnalyzer.analyze_text's chunk analyses: chunk the text with the
default parameters and analyze each chunk in order; the first raised
exception aborts the whole review (none). -/
def analyzeTextResults (text : List Char) (classifier : List Char → VerdictJson) :
    Option (List AnalysisResult) :=
  (chunkText text 100 20).bind (fun chunks => chunks.mapM (fun c => analyzeChunk c (classifier c)))

/-- The success/failure counters of steam_sentiment.py's main loop. -/
structure Counters where
  saved : ℕ
  failed : ℕ
deriving DecidableEq

/-- One iteration of main's review loop: analyze the review's text; an
exception increments the failed counter with nothing persisted; otherwise
insert_sentiment_data persists one chunk row per analysis result inside a
transaction whose success is dbOk — on success the saved counter
increments, on failure the transaction rolls back (zero rows) and the
failed counter increments.  Returns the counters and the number of chunk
rows durably persisted for this review. -/
def processReview (classifier : List Char → VerdictJson) (counters : Counters)
    (text : List Char) (dbOk : Bool) : Counters × ℕ :=
  match analyzeTextResults text classifier with
  | none => ({ counters with failed := counters.failed + 1 }, 0)
  | some results =>
    if dbOk then ({ counters with saved := counters.saved + 1 }, results.length)
    else ({ counters with failed := counters.failed + 1 }, 0)

/-- main's sequential review loop: process each review in order,
threading the counters; collects each review's persisted chunk-row
count. -/
def runReviews (classifier : List Char → VerdictJson) (counters : Counters) :
    List (List Char × Bool) → Counters × List ℕ
  | [] => (counters, [])
  | (text, dbOk) :: rest =>
    let stepped := processReview classifier counters text dbOk
    let restRun := runReviews classifier stepped.1 rest
    (restRun.1, stepped.2 :: restRun.2)

/-- A review record scraped from a rendered review card
(steam_review_scraper.py's all_reviews entries). -/
structure ScrapedReview where
  steam_id : String
  username : String
  voted_up : Bool
  playtime_forever : ℤ
  review_text : String
  timestamp_created : Option ℤ
deriving DecidableEq

/-- A review record from the Steam appreviews feed, with the fields the
scraper reads; every field is optional because the code accesses the
response dict with .get. -/
structure FeedReview where
  recommendationid : Option String
  author_steamid : Option String
  author_playtime_forever : Option ℤ
  author_playtime_last_two_weeks : Option ℤ
  author_num_games_owned : Option ℤ
  author_num_reviews : Option ℤ
  language : Option String
  review : Option String
  timestamp_created : Option ℤ
  timestamp_updated : Option ℤ
  voted_up : Option Bool
  votes_up : Option ℤ
  votes_funny : Option ℤ
  weighted_vote_score : Option ℚ
  comment_count : Option ℤ
  steam_purchase : Option Bool
  received_for_free : Option Bool
  written_during_early_access : Option Bool
deriving DecidableEq

/-- The empty dict api_reviews.get(steam_id, ∅): every .get on it yields
its default. -/
def emptyFeedReview : FeedReview :=
  ⟨none, none, none, none, none, none, none, none, none,
   none, none, none, none, none, none, none, none, none⟩

/-- A row of the steam_reviews table: the 20 columns written by
DatabaseManager.save_review, in the shape produced by the merge loop. -/
structure ReviewRow where
  steam_product_id : ℕ
  review_id : String
  author_steamid : String
  author_playtime_forever : ℤ
  author_playtime_last_two_weeks : Option ℤ
  author_num_games_owned : Option ℤ
  author_num_reviews : Option ℤ
  language : String
  review : String
  timestamp_created : Option ℤ
  timestamp_updated : Option ℤ
  voted_up : Bool
  votes_up : Option ℤ
  votes_funny : Option ℤ
  weighted_vote_score : Option ℚ
  comment_count : Option ℤ
  steam_purchase : Option Bool
  received_for_free : Option Bool
  written_during_early_access : Option Bool
  created_at : ℤ
deriving DecidableEq

/-- The body of the merge loop of steam_review_scraper.py for one scraped
review: look the author up in the api_reviews dict (empty dict when
absent), then build the review_data dict.  Key .get(k, default) uses the
default only when the key is missing; the two timestamp fields instead
test Python truthiness, so a present-but-zero feed timestamp also falls
through; created_at is stamped with the current clock, passed here
explicitly as now. -/
def mergeOne (now : ℤ) (appid : ℕ) (feed : String → Option FeedReview)
    (s : ScrapedReview) : ReviewRow :=
  let a := (feed s.steam_id).getD emptyFeedReview
  { steam_product_id := appid
    review_id := a.recommendationid.getD (s.steam_id ++ "_" ++ toString appid)
    author_steamid := s.steam_id
    author_playtime_forever := a.author_playtime_forever.getD s.playtime_forever
    author_playtime_last_two_weeks := a.author_playtime_last_two_weeks
    author_num_games_owned := a.author_num_games_owned
    author_num_reviews := a.author_num_reviews
    language := a.language.getD "english"
    review := a.review.getD s.review_text
    timestamp_created := match a.timestamp_created with
      | some t => if t = 0 then s.timestamp_created else some t
      | none => s.timestamp_created
    timestamp_updated := match a.timestamp_updated with
      | some t => if t = 0 then none else some t
      | none => none
    voted_up := a.voted_up.getD s.voted_up
    votes_up := a.votes_up
    votes_funny := a.votes_funny
    weighted_vote_score := a.weighted_vote_score
    comment_count := a.comment_count
    steam_purchase := a.steam_purchase
    received_for_free := a.received_for_free
    written_during_early_access := a.written_during_early_access
    created_at := now }

/-- The merge loop: one merged review_data per scraped record, in the
scraped list's order. -/
def mergeReviews (now : ℤ) (appid : ℕ) (scraped : List ScrapedReview)
    (feed : String → Option FeedReview) : List ReviewRow :=
  scraped.map (mergeOne now appid feed)

/-- Spec-side field-resolution predicate, transcribed from the spec
sentence for MergedReview: the feed value takes precedence and the
scraped value is used only when the feed value is absent. -/
def specFeedPrecedence {α : Type} (feedVal : Option α) (scrapedVal mergedVal : α) : Prop :=
  (∀ v, feedVal = some v → mergedVal = v) ∧ (feedVal = none → mergedVal = scrapedVal)

/-- Erase the clock-stamped created_at field of a merged row. -/
def eraseCreatedAt (r : ReviewRow) : ReviewRow := { r with created_at := 0 }

/-- The author profile reference found in a review card: a numeric
/profiles/ link, a vanity /id/ link, or no usable link. -/
inductive ProfileRef where
  | numeric (id : String)
  | vanity (aliasName : String)
  | missing
deriving DecidableEq

/-- The data the review-card parsing loop reads from one rendered card. -/
structure ReviewCard where
  hasRecommendedText : Bool
  hasNotRecommendedText : Bool
  username : String
  ref : ProfileRef
  playtime_forever : ℤ
  review_text : String
  timestamp_created : Option ℤ
deriving DecidableEq

/-- Identity resolution for one card: a numeric profile link is used as
is; a vanity link goes through get_numeric_steam_id (the resolver), whose
falsy results (lookup failure or empty string) leave the identity
unresolved; a missing link stays unresolved. -/
def resolveCard (resolver : String → Option String) : ProfileRef → Option String
  | ProfileRef.numeric id => some id
  | ProfileRef.vanity a => (resolver a).bind (fun nid => if nid = "" then none else some nid)
  | ProfileRef.missing => none

/-- The review-card parsing loop: skip cards that are not reviews (no
Recommended text), resolve the identity and silently skip the card when
it cannot be resolved, otherwise emit the scraped record. -/
def parseCards (resolver : String → Option String) (cards : List ReviewCard) :
    List ScrapedReview :=
  cards.filterMap (fun c =>
    if !c.hasRecommendedText then none
    else match resolveCard resolver c.ref with
      | none => none
      | some sid => some
          { steam_id := sid
            username := c.username
            voted_up := !c.hasNotRecommendedText
            playtime_forever := c.playtime_forever
            review_text := c.review_text
            timestamp_created := c.timestamp_created })

/-- One page of the appreviews feed as the pagination loop sees it: HTTP
status 200 (ok), the success flag, the record list, and the returned
cursor (data.get of cursor). -/
structure ApiResponse where
  ok : Bool
  success : Bool
  reviews : List FeedReview
  cursor : Option String

/-- The key under which the pagination loop stores a feed record:
review.get(author).get(steamid), skipped when missing or falsy
(empty). -/
def feedKeyOf (e : FeedReview) : Option String :=
  match e.author_steamid with
  | some sid => if sid = "" then none else some sid
  | none => none

/-- Python dict assignment d[k] = v: update the existing entry in place,
else append, preserving insertion order. -/
def dictInsert (k : String) (v : FeedReview) :
    List (String × FeedReview) → List (String × FeedReview)
  | [] => [(k, v)]
  | (k2, v2) :: rest => if k2 = k then (k, v) :: rest else (k2, v2) :: dictInsert k v rest

/-- Adding one page's records to the api_reviews dict, keyed by author
steamid; a later record for the same identity overwrites the earlier
(last writer wins). -/
def addPageReviews (acc : List (String × FeedReview)) (entries : List FeedReview) :
    List (String × FeedReview) :=
  entries.foldl (fun d e => match feedKeyOf e with
    | some sid => dictInsert sid e d
    | none => d) acc

/-- The cursor-paginated fetch loop of steam_review_scraper.py: request a
page at the current cursor; stop on a non-200 status, an unsuccessful
response, or an empty record list; otherwise add the records and advance
the cursor, stopping when the returned cursor is missing, empty or equal
to the start sentinel.  The loop has no bound in the source; fuel bounds
the number of pages the model may take, and a run that stops by any of
the loop's own exits is independent of any larger fuel. -/
def fetchPages (feed : String → ApiResponse) :
    ℕ → String → List (String × FeedReview) → List (String × FeedReview)
  | 0, _, acc => acc
  | fuel + 1, cursor, acc =>
    let r := feed cursor
    if !r.ok then acc
    else if !r.success then acc
    else if r.reviews.isEmpty then acc
    else
      let acc2 := addPageReviews acc r.reviews
      match r.cursor with
      | none => acc2
      | some c => if c = "" then acc2 else if c = "*" then acc2 else fetchPages feed fuel c acc2

/-- Python dict lookup on the association-list model. -/
def dictLookup (k : String) : List (String × FeedReview) → Option FeedReview
  | [] => none
  | (k2, v) :: rest => if k2 = k then some v else dictLookup k rest

/-- The last record of a page keyed to identity k (the record that wins
when a page lists an identity more than once). -/
def lastKeyed (k : String) (entries : List FeedReview) : Option FeedReview :=
  (entries.filter (fun e => decide (feedKeyOf e = some k))).getLast?

/-- DatabaseManager.save_review on the steam_reviews table modelled as a
lookup function keyed by review_id: insert the full row when the key is
absent; on conflict update only votes_up, votes_funny and review, leaving
every other column of the existing row unchanged. -/
def saveReview (db : String → Option ReviewRow) (r : ReviewRow) :
    String → Option ReviewRow :=
  fun k =>
    if k = r.review_id then
      match db r.review_id with
      | none => some r
      | some old => some { old with votes_up := r.votes_up, votes_funny := r.votes_funny,
                                    review := r.review }
    else db k

/-- The empty steam_reviews table. -/
def emptyDb : String → Option ReviewRow := fun _ => none

/-- Whether align_to_sentence_boundary's backwards scan would cut
somewhere inside this (reversed) segment, given the character scanned
just before entering it. -/
def scanQualB (prev : Option Char) : List Char → Bool
  | [] => false
  | c :: rest => (decide (c ∈ sentenceEndings) && prevOk prev) || scanQualB (some c) rest

/-- The last element of a scanned segment, or the carried-in previous
character when the segment is empty: the prev value with which
align_to_sentence_boundary's scan leaves the segment. -/
def lastOpt (prev : Option Char) : List Char → Option Char
  | [] => prev
  | c :: u => lastOpt (some c) u

/-! Concrete inputs used by witnesses and counterexamples. -/

/-- A first payload for the review keyed "rid_1". -/
def dbRowFirst : ReviewRow :=
  { steam_product_id := 1901370
    review_id := "rid_1"
    author_steamid := "76561198000000001"
    author_playtime_forever := 600
    author_playtime_last_two_weeks := some 120
    author_num_games_owned := some 10
    author_num_reviews := some 3
    language := "english"
    review := "Great game."
    timestamp_created := some 1700000000
    timestamp_updated := some 1700000100
    voted_up := true
    votes_up := some 5
    votes_funny := some 1
    weighted_vote_score := some (mkRat 1 2)
    comment_count := some 1
    steam_purchase := some true
    received_for_free := some false
    written_during_early_access := some false
    created_at := 100 }

/-- A later payload for the same review identifier, with fresh counters,
weighted score, comment count, text and creation timestamp. -/
def dbRowSecond : ReviewRow :=
  { dbRowFirst with
    author_playtime_forever := 900
    review := "Great game. Still playing."
    timestamp_created := some 1700000500
    votes_up := some 9
    votes_funny := some 4
    weighted_vote_score := some (mkRat 3 4)
    comment_count := some 7
    created_at := 200 }

/-- A scraped review record. -/
def scrapedA : ScrapedReview :=
  { steam_id := "76561198000000001"
    username := "PlayerA"
    voted_up := true
    playtime_forever := 600
    review_text := "Great."
    timestamp_created := some 1700000000 }

/-- A second scraped review record with a different identity. -/
def scrapedB : ScrapedReview :=
  { scrapedA with steam_id := "76561198000000002", username := "PlayerB" }

/-- A feed lookup with no records. -/
def noFeed : String → Option FeedReview := fun _ => none

/-- A feed record with no feed-assigned review identifier and a
present-but-zero creation timestamp. -/
def feedRecZeroTs : FeedReview :=
  { recommendationid := none
    author_steamid := some "76561198000000001"
    author_playtime_forever := some 900
    author_playtime_last_two_weeks := some 60
    author_num_games_owned := some 42
    author_num_reviews := some 7
    language := some "english"
    review := some "Great game, long review."
    timestamp_created := some 0
    timestamp_updated := some 1700000200
    voted_up := some true
    votes_up := some 11
    votes_funny := some 2
    weighted_vote_score := some (mkRat 9 10)
    comment_count := some 3
    steam_purchase := some true
    received_for_free := some false
    written_during_early_access := some false }

/-- A feed lookup holding only feedRecZeroTs, keyed by scrapedA's
identity. -/
def oneFeed : String → Option FeedReview :=
  fun k => if k = "76561198000000001" then some feedRecZeroTs else none

/-- A review card whose author link is the vanity alias player_x. -/
def cardX : ReviewCard :=
  { hasRecommendedText := true
    hasNotRecommendedText := false
    username := "player_x"
    ref := ProfileRef.vanity "player_x"
    playtime_forever := 60
    review_text := "Nice."
    timestamp_created := some 1700000000 }

/-- An identity resolver that cannot resolve any alias. -/
def failResolver : String → Option String := fun _ => none

/-- Feed records for the pagination scenario: identities 111 and 222 on
the first page, identity 111 re-listed on the second page. -/
def feedEntry1 : FeedReview := { emptyFeedReview with author_steamid := some "111", votes_up := some 1 }

/-- Second record of the first page. -/
def feedEntry2 : FeedReview := { emptyFeedReview with author_steamid := some "222", votes_up := some 2 }

/-- The second page's record, re-listing identity 111. -/
def feedEntry3 : FeedReview := { emptyFeedReview with author_steamid := some "111", votes_up := some 3 }

/-- First mock page: two records, next cursor c1. -/
def pageOne : ApiResponse :=
  { ok := true, success := true, reviews := [feedEntry1, feedEntry2], cursor := some "c1" }

/-- Second mock page: one record, next cursor c2. -/
def pageTwo : ApiResponse :=
  { ok := true, success := true, reviews := [feedEntry3], cursor := some "c2" }

/-- Third mock page: empty record list. -/
def pageEmpty : ApiResponse :=
  { ok := true, success := true, reviews := [], cursor := some "c3" }

/-- The mock feed: two non-empty pages followed by an empty page. -/
def mockFeed : String → ApiResponse :=
  fun c => if c = "*" then pageOne else if c = "c1" then pageTwo else pageEmpty

/-- A well-formed classifier verdict with confidence one half. -/
def verdictGood : VerdictJson :=
  { sentiment := "positive"
    confidence := mkRat 1 2
    category := "Memes"
    suggested_category := none
    tags := [] }

/-- A verdict identical to verdictGood except for confidence 1.5, outside
[0, 1]. -/
def verdictBigConf : VerdictJson := { verdictGood with confidence := mkRat 3 2 }

/-- A classifier returning confidence 1.5 for the chunk "B." and a
well-formed verdict for every other chunk. -/
def overconfidentClassifier : List Char → VerdictJson :=
  fun c => if c = String.toList "B." then verdictBigConf else verdictGood

/-- A classifier returning the out-of-enum sentiment value "mixed" for
the chunk "B." and a well-formed verdict otherwise. -/
def badSentimentClassifier : List Char → VerdictJson :=
  fun c => if c = String.toList "B." then { verdictGood with sentiment := "mixed" } else verdictGood

theorem dropWhile_dropWhile_self {α : Type} (p : α → Bool) (l : List α) :
    (l.dropWhile p).dropWhile p = l.dropWhile p := by
  cases h : l.dropWhile p with
  | nil => rfl
  | cons a t =>
    have ha := List.head?_dropWhile_not p l
    rw [h] at ha
    simp only [List.head?_cons] at ha
    simp [List.dropWhile_cons, ha]

theorem rstrip_rstrip {α : Type} (p : α → Bool) (l : List α) :
    (((l.reverse.dropWhile p).reverse).reverse.dropWhile p).reverse =
      (l.reverse.dropWhile p).reverse := by
  rw [List.reverse_reverse, dropWhile_dropWhile_self]

theorem rstrip_cons {α : Type} (p : α → Bool) (a : α) (l : List α) (ha : p a = false) :
    ∃ t, ((a :: l).reverse.dropWhile p).reverse = a :: t := by
  rw [List.reverse_cons, List.dropWhile_append]
  by_cases hnil : (l.reverse.dropWhile p).isEmpty
  · rw [if_pos hnil]
    exact ⟨[], by simp [List.dropWhile_cons, ha]⟩
  · rw [if_neg hnil]
    exact ⟨(l.reverse.dropWhile p).reverse, by simp⟩

theorem pyStrip_idem (s : List Char) : pyStrip (pyStrip s) = pyStrip s := by
  unfold pyStrip
  cases h : s.dropWhile pyIsSpace with
  | nil => simp
  | cons a t =>
    have ha := List.head?_dropWhile_not pyIsSpace s
    rw [h] at ha
    simp only [List.head?_cons] at ha
    obtain ⟨t2, h2⟩ := rstrip_cons pyIsSpace a t ha
    have h3 := rstrip_rstrip pyIsSpace (a :: t)
    rw [h2] at h3
    rw [h2, List.dropWhile_cons_of_neg (by simp [ha])]
    exact h3

theorem mem_splitIntoSentences_strip {t x : List Char} (hx : x ∈ splitIntoSentences t) :
    pyStrip x = x ∧ x ≠ [] := by
  unfold splitIntoSentences at hx
  obtain ⟨hx1, hx2⟩ := List.mem_filter.1 hx
  obtain ⟨m, hm, rfl⟩ := List.mem_map.1 hx1
  refine ⟨pyStrip_idem m, ?_⟩
  simpa using hx2

theorem splitIntoSentences_strip_filter (t : List Char) :
    ((splitIntoSentences t).map pyStrip).filter (fun s => !s.isEmpty) =
      splitIntoSentences t := by
  have h1 : (splitIntoSentences t).map pyStrip = splitIntoSentences t := by
    conv_rhs => rw [← List.map_id (splitIntoSentences t)]
    exact List.map_congr_left (fun x hx => (mem_splitIntoSentences_strip hx).1)
  rw [h1]
  refine List.filter_eq_self.mpr (fun x hx => ?_)
  simpa using (mem_splitIntoSentences_strip hx).2

/-- Claim C5: for every text in which every sentence of the normalized
text has at most chunk_size words, chunk_text returns exactly the ordered
sentence list of the normalized text with empty entries removed (no
overlap, no further splitting), for any overlap parameter. -/
theorem chunkText_cheap_path (text : List Char) (cs ov : ℤ)
    (h : cheapPathGuard (normalizeText text) cs = true) :
    chunkText text cs ov = some (splitIntoSentences (normalizeText text)) := by
  unfold chunkText chunkTextFromNormalized
  rw [if_pos (show ((splitIntoSentences (normalizeText text)).all
    (fun s => decide (((pySplitWs s).length : ℤ) ≤ cs))) = true from h)]
  rw [splitIntoSentences_strip_filter]

/-- Witness for C5 on the two-sentence text "Hi. Ok.". -/
theorem chunkText_cheap_path_witness :
    cheapPathGuard (normalizeText (String.toList "Hi. Ok.")) 100 = true ∧
    chunkText (String.toList "Hi. Ok.") 100 20 =
      some (splitIntoSentences (normalizeText (String.toList "Hi. Ok."))) :=
  ⟨by decide, chunkText_cheap_path (String.toList "Hi. Ok.") 100 20 (by decide)⟩

/-- Claim C10: for every input text consisting only of whitespace
(including the empty text), chunk_text returns the empty chunk list, for
all chunk_size and overlap parameters — the cheap path returns before the
sliding-window code (and its stride) is ever reached. -/
theorem chunkText_whitespace_empty (text : List Char)
    (h : ∀ c ∈ text, pyIsSpace c = true) (cs ov : ℤ) :
    chunkText text cs ov = some [] := by
  have h1 : text.dropWhile pyIsSpace = [] := List.dropWhile_eq_nil_iff.mpr h
  have h2 : pyStrip text = [] := by unfold pyStrip; rw [h1]; rfl
  have h3 : normalizeText text = [] := by unfold normalizeText; rw [h2]; rfl
  unfold chunkText
  rw [h3]
  rfl

/-- Witness for C10 on a two-space text with degenerate parameters
(chunk_size 0, overlap 7, so chunk_size − overlap < 0). -/
theorem chunkText_whitespace_empty_witness :
    (∀ c ∈ String.toList "  ", pyIsSpace c = true) ∧
    chunkText (String.toList "  ") 0 7 = some [] :=
  ⟨by decide, chunkText_whitespace_empty (String.toList "  ") (by decide) 0 7⟩

theorem lastOpt_eq_head_reverse (prev : Option Char) (u : List Char) :
    lastOpt prev u = (match u.reverse with | [] => prev | x :: _ => some x) := by
  induction u generalizing prev with
  | nil => rfl
  | cons c u ih =>
    rw [lastOpt, ih (some c), List.reverse_cons]
    cases hu : u.reverse with
    | nil => simp
    | cons x r => simp

theorem scanQualB_decomp (w : List Char) (prev : Option Char) :
    scanQualB prev w = true ↔
      ∃ u c t, w = u ++ c :: t ∧ c ∈ sentenceEndings ∧ prevOk (lastOpt prev u) = true := by
  induction w generalizing prev with
  | nil =>
    simp only [scanQualB]
    constructor
    · intro h
      exact absurd h (by simp)
    · rintro ⟨u, c, t, h, -, -⟩
      exact absurd h.symm (by simp)
  | cons x w ih =>
    simp only [scanQualB, Bool.or_eq_true, Bool.and_eq_true, decide_eq_true_eq, ih]
    constructor
    · rintro (⟨hx, hp⟩ | ⟨u, c, t, rfl, hc, hpo⟩)
      · exact ⟨[], x, w, rfl, hx, hp⟩
      · exact ⟨x :: u, c, t, rfl, hc, hpo⟩
    · rintro ⟨u, c, t, hw, hc, hpo⟩
      cases u with
      | nil =>
        cases hw
        exact Or.inl ⟨hc, hpo⟩
      | cons y u =>
        simp only [List.cons_append, List.cons.injEq] at hw
        obtain ⟨rfl, hw2⟩ := hw
        simp only [lastOpt] at hpo
        exact Or.inr ⟨u, c, t, hw2, hc, hpo⟩

theorem scanQual_reverse_iff (v : List Char) :
    scanQualB none v.reverse = true ↔
      ∃ a c b, v = a ++ c :: b ∧ c ∈ sentenceEndings ∧
        (b = [] ∨ pyIsSpace (b.headD ' ') = true) := by
  rw [scanQualB_decomp]
  constructor
  · rintro ⟨u, c, t, hw, hc, hpo⟩
    refine ⟨t.reverse, c, u.reverse, ?_, hc, ?_⟩
    · have h2 := congrArg List.reverse hw
      simpa [List.reverse_append] using h2
    · rw [lastOpt_eq_head_reverse] at hpo
      cases hu : u.reverse with
      | nil =>
        left
        rfl
      | cons x r =>
        right
        rw [hu] at hpo
        simp only [prevOk] at hpo
        simp [hu, hpo]
  · rintro ⟨a, c, b, rfl, hc, hb⟩
    refine ⟨b.reverse, c, a.reverse, by simp [List.reverse_append], hc, ?_⟩
    rw [lastOpt_eq_head_reverse, List.reverse_reverse]
    rcases hb with rfl | hws
    · rfl
    · cases b with
      | nil => rfl
      | cons x r =>
        simp only [List.headD_cons] at hws
        simpa [prevOk] using hws

theorem alignRev_eq_none (r : List Char) (prev : Option Char)
    (h : scanQualB prev r = false) : alignRev prev r = none := by
  induction r generalizing prev with
  | nil => rfl
  | cons c r ih =>
    rw [scanQualB, Bool.or_eq_false_iff] at h
    rw [alignRev, if_neg (by simp [h.1])]
    exact ih (some c) h.2

theorem alignRev_skip (u : List Char) (prev : Option Char) (rest : List Char)
    (h : scanQualB prev u = false) :
    alignRev prev (u ++ rest) = alignRev (lastOpt prev u) rest := by
  induction u generalizing prev with
  | nil => rfl
  | cons c u ih =>
    rw [scanQualB, Bool.or_eq_false_iff] at h
    rw [List.cons_append, alignRev, if_neg (by simp [h.1]), lastOpt]
    exact ih (some c) h.2

theorem noQualSeg_of_scan (v : List Char) (h : scanQualB none v.reverse = false) :
    ∀ a c b, v = a ++ c :: b → c ∈ sentenceEndings →
      b ≠ [] ∧ pyIsSpace (b.headD ' ') = false := by
  intro a c b hv hc
  by_contra hcon
  rw [not_and_or, not_not, Bool.not_eq_false] at hcon
  have h2 : scanQualB none v.reverse = true :=
    (scanQual_reverse_iff v).2 ⟨a, c, b, hv, hc, hcon⟩
  rw [h2] at h
  cases h

/-- Claim C6 (amended): a sliding-window chunk is trimmed back to end at
the rightmost sentence-terminal punctuation character that is either the
chunk's last character or followed by whitespace; a chunk containing no
such qualifying character — even if it contains sentence-terminal
punctuation elsewhere, e.g. inside a number — is kept as-is. -/
theorem align_boundary_spec (chunk : List Char) :
    ((∀ a c b, chunk = a ++ c :: b → c ∈ sentenceEndings →
        b ≠ [] ∧ pyIsSpace (b.headD ' ') = false) →
      alignToSentenceBoundary chunk = chunk) ∧
    (∀ a c b, chunk = a ++ c :: b → c ∈ sentenceEndings →
      (b = [] ∨ pyIsSpace (b.headD ' ') = true) →
      (∀ a2 c2 b2, b = a2 ++ c2 :: b2 → c2 ∈ sentenceEndings →
        b2 ≠ [] ∧ pyIsSpace (b2.headD ' ') = false) →
      alignToSentenceBoundary chunk = a ++ [c]) := by
  constructor
  · intro H
    cases hsq : scanQualB none chunk.reverse with
    | false =>
      unfold alignToSentenceBoundary
      rw [alignRev_eq_none chunk.reverse none hsq]
    | true =>
      obtain ⟨a, c, b, hv, hc, hb⟩ := (scanQual_reverse_iff chunk).1 hsq
      obtain ⟨hne, hws⟩ := H a c b hv hc
      rcases hb with rfl | hws2
      · exact absurd rfl hne
      · rw [hws2] at hws
        cases hws
  · intro a c b hv hc hb Hb
    have hnq : scanQualB none b.reverse = false := by
      cases hsq : scanQualB none b.reverse with
      | false => rfl
      | true =>
        obtain ⟨a2, c2, b2, hv2, hc2, hb2⟩ := (scanQual_reverse_iff b).1 hsq
        obtain ⟨hne, hws⟩ := Hb a2 c2 b2 hv2 hc2
        rcases hb2 with rfl | hws2
        · exact absurd rfl hne
        · rw [hws2] at hws
          cases hws
    have hrev : chunk.reverse = b.reverse ++ c :: a.reverse := by
      rw [hv]
      simp [List.reverse_append]
    have hp : prevOk (lastOpt none b.reverse) = true := by
      rw [lastOpt_eq_head_reverse, List.reverse_reverse]
      rcases hb with rfl | hws
      · rfl
      · cases b with
        | nil => rfl
        | cons x r =>
          simp only [List.headD_cons] at hws
          simpa [prevOk] using hws
    unfold alignToSentenceBoundary
    rw [hrev, alignRev_skip b.reverse none (c :: a.reverse) hnq, alignRev,
      if_pos (by simp [hc, hp])]
    simp

/-- Witness for amended C6: the chunk "Hi. no" is trimmed back to "Hi.",
the period being followed by whitespace. -/
theorem align_boundary_spec_witness :
    alignToSentenceBoundary (String.toList "Hi. no") = ['H', 'i'] ++ ['.'] :=
  (align_boundary_spec (String.toList "Hi. no")).2 ['H', 'i'] '.' [' ', 'n', 'o']
    (by decide) (by decide) (Or.inr (by decide))
    (noQualSeg_of_scan [' ', 'n', 'o'] (by decide))

/-- Counterexample to claim C6 as stated: on the text "aa 3.5 bb cc" with
chunk_size 3 and overlap 0, the first sliding window is "aa 3.5 bb",
which contains the sentence-terminal character of "3.5"; the claim says
the emitted chunk is trimmed back to end at that character, but the code
emits the window unchanged because the period is not followed by
whitespace. -/
theorem align_claim_cex :
    chunkText (String.toList "aa 3.5 bb cc") 3 0 =
      some [String.toList "aa 3.5 bb", String.toList "cc"] ∧
    '.' ∈ String.toList "aa 3.5 bb" ∧
    (String.toList "aa 3.5 bb").getLast? ≠ some '.' := by decide

/-- Counterexample to claim C1 as stated: the text "a. b b b b b b b b b."
is a single 10-word sentence (no capital letter follows the first period),
so the sliding-window path is taken with chunk_size 5, overlap 2 (stride
3 > 0); sentence-boundary alignment trims the first window "a. b b b b"
back to "a.", so the words at indices 1 and 2 are covered by no emitted
chunk's word span. -/
theorem chunk_cover_claim_cex :
    (0 : ℤ) < 5 - 2 ∧
    cheapPathGuard (normalizeText (String.toList "a. b b b b b b b b b.")) 5 = false ∧
    ¬ chunkSpanCovers (String.toList "a. b b b b b b b b b.") 5 2 := by decide

/-- Claim C1 (amended): on the sliding-window path with 0 ≤ overlap <
chunk_size, every word of the normalized text is covered by the span of
some window before sentence-boundary alignment (the emitted chunk may be
a trimmed prefix of that window), and the emitted chunks appear in the
text's left-to-right order (their window start indices are strictly
increasing). -/
theorem chunk_window_coverage (text : List Char) (cs ov : ℤ)
    (hov : 0 ≤ ov) (hlt : ov < cs)
    (hsl : cheapPathGuard (normalizeText text) cs = false) :
    (∀ j < (pySplitWs (normalizeText text)).length,
        ∃ i ∈ pyRange (pySplitWs (normalizeText text)).length (cs - ov).toNat,
          i ≤ j ∧ (j : ℤ) < (i : ℤ) + cs) ∧
    chunkText text cs ov = some
      (((pyRange (pySplitWs (normalizeText text)).length (cs - ov).toNat).filter
          (fun i => !(chunkAt (pySplitWs (normalizeText text)) cs i).isEmpty)).map
        (chunkAt (pySplitWs (normalizeText text)) cs)) ∧
    List.Pairwise (· < ·)
      ((pyRange (pySplitWs (normalizeText text)).length (cs - ov).toNat).filter
        (fun i => !(chunkAt (pySplitWs (normalizeText text)) cs i).isEmpty)) := by
  have hstep : 0 < (cs - ov).toNat := by omega
  refine ⟨?_, ?_, ?_⟩
  · intro j hj
    set n := (pySplitWs (normalizeText text)).length with hn
    set step := (cs - ov).toNat with hstepdef
    refine ⟨(j / step) * step, ?_, Nat.div_mul_le_self j step, ?_⟩
    · unfold pyRange
      refine List.mem_map.2 ⟨j / step, List.mem_range.2 ?_, rfl⟩
      have h1 : (j + step) / step ≤ (n + step - 1) / step := by
        apply Nat.div_le_div_right
        omega
      rw [Nat.add_div_right j hstep] at h1
      omega
    · have h1 : j % step < step := Nat.mod_lt j hstep
      have h2 : (j / step) * step + j % step = j := by
        rw [Nat.mul_comm]
        exact Nat.div_add_mod j step
      have h3 : (step : ℤ) = cs - ov := Int.toNat_of_nonneg (by omega)
      have h4 : j < (j / step) * step + step := by omega
      have h5 : ((j : ℤ)) < (((j / step) * step : ℕ) : ℤ) + (step : ℤ) := by
        exact_mod_cast h4
      omega
  · unfold chunkText chunkTextFromNormalized
    rw [if_neg (by
      rw [show ((splitIntoSentences (normalizeText text)).all
        (fun s => decide (((pySplitWs s).length : ℤ) ≤ cs))) =
          cheapPathGuard (normalizeText text) cs from rfl, hsl]
      simp)]
    rw [if_neg (by omega), if_neg (by omega)]
    rw [List.filter_map]
    rfl
  · have h1 : List.Pairwise (· < ·)
        (pyRange (pySplitWs (normalizeText text)).length (cs - ov).toNat) := by
      unfold pyRange
      refine List.Pairwise.map _ ?_ (List.pairwise_lt_range _)
      intro a b hab
      exact (mul_lt_mul_right hstep).2 hab
    exact h1.filter _

/-- Witness for amended C1 on the text "a b c." (one 3-word sentence)
with chunk_size 2 and overlap 0. -/
theorem chunk_window_coverage_witness :
    (∀ j < (pySplitWs (normalizeText (String.toList "a b c."))).length,
        ∃ i ∈ pyRange (pySplitWs (normalizeText (String.toList "a b c."))).length
            ((2 : ℤ) - 0).toNat,
          i ≤ j ∧ (j : ℤ) < (i : ℤ) + 2) ∧
    chunkText (String.toList "a b c.") 2 0 = some
      (((pyRange (pySplitWs (normalizeText (String.toList "a b c."))).length
            ((2 : ℤ) - 0).toNat).filter
          (fun i => !(chunkAt (pySplitWs (normalizeText (String.toList "a b c."))) 2 i).isEmpty)).map
        (chunkAt (pySplitWs (normalizeText (String.toList "a b c."))) 2)) ∧
    List.Pairwise (· < ·)
      ((pyRange (pySplitWs (normalizeText (String.toList "a b c."))).length
          ((2 : ℤ) - 0).toNat).filter
        (fun i => !(chunkAt (pySplitWs (normalizeText (String.toList "a b c."))) 2 i).isEmpty)) :=
  chunk_window_coverage (String.toList "a b c.") 2 0 (by decide) (by decide) (by decide)

/-- Counterexample to claim C3 as stated: after upserting dbRowFirst and
then dbRowSecond under the same review identifier, the stored row keeps
dbRowFirst's weighted score and comment count — the ON CONFLICT clause of
save_review updates only votes_up, votes_funny and review, so the
"mutable fields" weighted score and comment count are not updated from
the second payload as the claim says. -/
theorem save_review_claim_cex :
    dbRowSecond.review_id = dbRowFirst.review_id ∧
    dbRowSecond.comment_count = some 7 ∧
    dbRowSecond.weighted_vote_score = some (mkRat 3 4) ∧
    (saveReview (saveReview emptyDb dbRowFirst) dbRowSecond dbRowFirst.review_id).map
      (fun r => (r.comment_count, r.weighted_vote_score)) =
      some (some 1, some (mkRat 1 2)) := by decide

/-- Claim C3 (amended): the second upsert of the same review identifier
updates only the vote count, funny count and review text from the second
payload; every other column — including weighted score and comment count
as well as the identity fields and the original creation timestamp —
keeps its value from the first insert, and rows under other keys are
untouched. -/
theorem save_review_upsert (db : String → Option ReviewRow) (r1 r2 : ReviewRow)
    (hid : r2.review_id = r1.review_id) (hnew : db r1.review_id = none) :
    saveReview (saveReview db r1) r2 r1.review_id =
      some { r1 with
              votes_up := r2.votes_up
              votes_funny := r2.votes_funny
              review := r2.review } ∧
    ∀ k, k ≠ r1.review_id → saveReview (saveReview db r1) r2 k = db k := by
  constructor
  · unfold saveReview
    rw [hid]
    simp [hnew]
  · intro k hk
    unfold saveReview
    rw [hid]
    simp [hk]

/-- Witness for amended C3 on dbRowFirst / dbRowSecond over the empty
table. -/
theorem save_review_upsert_witness :
    dbRowSecond.review_id = dbRowFirst.review_id ∧
    saveReview (saveReview emptyDb dbRowFirst) dbRowSecond dbRowFirst.review_id =
      some { dbRowFirst with
              votes_up := dbRowSecond.votes_up
              votes_funny := dbRowSecond.votes_funny
              review := dbRowSecond.review } ∧
    saveReview (saveReview emptyDb dbRowFirst) dbRowSecond "another_key" = none :=
  ⟨by decide,
   (save_review_upsert emptyDb dbRowFirst dbRowSecond (by decide) rfl).1,
   (save_review_upsert emptyDb dbRowFirst dbRowSecond (by decide) rfl).2 "another_key"
     (by decide)⟩

/-- Counterexample to claim C4 as stated: the merge loop stamps
created_at with datetime.now() inside the loop, so two runs of the merge
on the identical (scraped, feed) input pair — performed at different
clock instants, here 100 and 200 — yield different MergedReview sets;
merge is not a pure function of the two record sets alone. -/
theorem merge_pure_claim_cex :
    mergeReviews 100 1901370 [scrapedA] noFeed ≠
      mergeReviews 200 1901370 [scrapedA] noFeed := by decide

/-- Claim C4 (amended): with the clock instant as an explicit extra
input, the merge is deterministic and order-independent over the scraped
set: permuting the scraped set permutes the merged set (the merged
multiset is unchanged), and two runs at different clock instants agree on
every field except the clock-stamped created_at. -/
theorem merge_deterministic (now now2 : ℤ) (appid : ℕ)
    (feed : String → Option FeedReview) (s1 s2 : List ScrapedReview)
    (hperm : s1.Perm s2) :
    (mergeReviews now appid s1 feed).Perm (mergeReviews now appid s2 feed) ∧
    (mergeReviews now appid s1 feed).map eraseCreatedAt =
      (mergeReviews now2 appid s1 feed).map eraseCreatedAt := by
  constructor
  · exact hperm.map _
  · unfold mergeReviews
    rw [List.map_map, List.map_map]
    rfl

/-- Witness for amended C4 on the two-record scraped set
[scrapedA, scrapedB] and its transposition, at clocks 100 and 200. -/
theorem merge_deterministic_witness :
    [scrapedA, scrapedB].Perm [scrapedB, scrapedA] ∧
    ((mergeReviews 100 1901370 [scrapedA, scrapedB] oneFeed).Perm
        (mergeReviews 100 1901370 [scrapedB, scrapedA] oneFeed) ∧
      (mergeReviews 100 1901370 [scrapedA, scrapedB] oneFeed).map eraseCreatedAt =
        (mergeReviews 200 1901370 [scrapedA, scrapedB] oneFeed).map eraseCreatedAt) :=
  ⟨by decide,
   merge_deterministic 100 200 1901370 oneFeed [scrapedA, scrapedB] [scrapedB, scrapedA]
     (by decide)⟩

theorem specFeedPrecedence_getD {α : Type} (o : Option α) (sv : α) :
    specFeedPrecedence o sv (o.getD sv) := by
  constructor
  · intro v hv
    rw [hv]
    rfl
  · intro hn
    rw [hn]
    rfl

/-- Counterexample to claim C8 as stated: a feed record whose creation
timestamp is present but zero.  The feed value is present, so by the
claim it should take precedence, yet the merged review carries the
scraped timestamp: the code tests Python truthiness, under which the
timestamp 0 counts as absent. -/
theorem merge_precedence_cex :
    ((oneFeed scrapedA.steam_id).getD emptyFeedReview).timestamp_created = some 0 ∧
    scrapedA.timestamp_created = some 1700000000 ∧
    (mergeOne 100 1901370 oneFeed scrapedA).timestamp_created = some 1700000000 := by
  decide

/-- Claim C8 (amended): each merged review keeps the scraped record's
canonical identity; for the fields with both a feed and a scraped source
(playtime, review text, recommendation flag) the feed value takes
precedence with the scraped value used exactly when the feed value is
absent; the review identifier is the feed-assigned id when present, else
the composite of identity and product id; the creation timestamp follows
the same precedence except that a feed timestamp equal to 0 is treated as
absent (Python truthiness); and when the scraped identities are distinct
there is exactly one merged review per identity of the scraped set. -/
theorem merge_field_resolution (now : ℤ) (appid : ℕ)
    (feed : String → Option FeedReview) (scraped : List ScrapedReview) :
    (mergeReviews now appid scraped feed).map (fun r => r.author_steamid) =
      scraped.map (fun s => s.steam_id) ∧
    (∀ s : ScrapedReview,
      specFeedPrecedence ((feed s.steam_id).getD emptyFeedReview).author_playtime_forever
        s.playtime_forever (mergeOne now appid feed s).author_playtime_forever ∧
      specFeedPrecedence ((feed s.steam_id).getD emptyFeedReview).review
        s.review_text (mergeOne now appid feed s).review ∧
      specFeedPrecedence ((feed s.steam_id).getD emptyFeedReview).voted_up
        s.voted_up (mergeOne now appid feed s).voted_up ∧
      (∀ rid, ((feed s.steam_id).getD emptyFeedReview).recommendationid = some rid →
        (mergeOne now appid feed s).review_id = rid) ∧
      (((feed s.steam_id).getD emptyFeedReview).recommendationid = none →
        (mergeOne now appid feed s).review_id = s.steam_id ++ "_" ++ toString appid) ∧
      (∀ t, ((feed s.steam_id).getD emptyFeedReview).timestamp_created = some t → t ≠ 0 →
        (mergeOne now appid feed s).timestamp_created = some t) ∧
      ((((feed s.steam_id).getD emptyFeedReview).timestamp_created = none ∨
          ((feed s.steam_id).getD emptyFeedReview).timestamp_created = some 0) →
        (mergeOne now appid feed s).timestamp_created = s.timestamp_created)) ∧
    ((scraped.map (fun s => s.steam_id)).Nodup →
      ∀ x ∈ scraped.map (fun s => s.steam_id),
        ((mergeReviews now appid scraped feed).map (fun r => r.author_steamid)).count x
          = 1) := by
  have hmap : (mergeReviews now appid scraped feed).map (fun r => r.author_steamid) =
      scraped.map (fun s => s.steam_id) := by
    unfold mergeReviews
    rw [List.map_map]
    rfl
  refine ⟨hmap, ?_, ?_⟩
  · intro s
    refine ⟨specFeedPrecedence_getD _ _, specFeedPrecedence_getD _ _,
      specFeedPrecedence_getD _ _, ?_, ?_, ?_, ?_⟩
    · intro rid hr
      show (((feed s.steam_id).getD emptyFeedReview).recommendationid).getD
        (s.steam_id ++ "_" ++ toString appid) = rid
      rw [hr]
      rfl
    · intro hr
      show (((feed s.steam_id).getD emptyFeedReview).recommendationid).getD
        (s.steam_id ++ "_" ++ toString appid) = s.steam_id ++ "_" ++ toString appid
      rw [hr]
      rfl
    · intro t ht hne
      show (match ((feed s.steam_id).getD emptyFeedReview).timestamp_created with
        | some t => if t = 0 then s.timestamp_created else some t
        | none => s.timestamp_created) = some t
      rw [ht]
      simp [hne]
    · intro hr
      show (match ((feed s.steam_id).getD emptyFeedReview).timestamp_created with
        | some t => if t = 0 then s.timestamp_created else some t
        | none => s.timestamp_created) = s.timestamp_created
      rcases hr with hr | hr
      · rw [hr]
      · rw [hr]
        simp
  · intro hnd x hx
    rw [hmap]
    exact List.count_eq_one_of_mem hnd hx

/-- Witness for amended C8: feedRecZeroTs has no feed-assigned id, so the
merged identifier is the composite of identity and product id; with the
distinct scraped identities of [scrapedA, scrapedB] there is exactly one
merged review carrying scrapedA's identity. -/
theorem merge_field_resolution_witness :
    ((oneFeed scrapedA.steam_id).getD emptyFeedReview).recommendationid = none ∧
    (mergeOne 100 1901370 oneFeed scrapedA).review_id =
      scrapedA.steam_id ++ "_" ++ toString 1901370 ∧
    ([scrapedA, scrapedB].map (fun s => s.steam_id)).Nodup ∧
    ((mergeReviews 100 1901370 [scrapedA, scrapedB] oneFeed).map
        (fun r => r.author_steamid)).count scrapedA.steam_id = 1 := by
  refine ⟨by decide, ?_, by decide, ?_⟩
  · exact (((merge_field_resolution 100 1901370 oneFeed [scrapedA, scrapedB]).2.1
      scrapedA).2.2.2.2.1) (by decide)
  · exact (merge_field_resolution 100 1901370 oneFeed [scrapedA, scrapedB]).2.2
      (by decide) scrapedA.steam_id (by decide)

theorem parseCards_cons_skip (resolver : String → Option String) (c : ReviewCard)
    (l : List ReviewCard)
    (h : c.hasRecommendedText = false ∨ resolveCard resolver c.ref = none) :
    parseCards resolver (c :: l) = parseCards resolver l := by
  unfold parseCards
  rw [List.filterMap_cons]
  rcases h with h | h
  · simp [h]
  · cases hrec : c.hasRecommendedText <;> simp [h, hrec]

theorem parseCards_cons_keep (resolver : String → Option String) (c : ReviewCard)
    (l : List ReviewCard) (sid : String) (hrec : c.hasRecommendedText = true)
    (hres : resolveCard resolver c.ref = some sid) :
    parseCards resolver (c :: l) =
      { steam_id := sid
        username := c.username
        voted_up := !c.hasNotRecommendedText
        playtime_forever := c.playtime_forever
        review_text := c.review_text
        timestamp_created := c.timestamp_created } :: parseCards resolver l := by
  unfold parseCards
  rw [List.filterMap_cons]
  simp [hrec, hres]

/-- Claim C9: a scraped review card whose raw identity the resolver
cannot turn into a canonical numeric identity contributes nothing:
removing all unresolvable (or non-review) cards leaves the parsed scraped
set unchanged, and every merged review — the only records handed to the
upsert writer — traces back to a card whose identity did resolve.  No
error is raised: parsing is total and silently skips such cards. -/
theorem unresolved_dropped (resolver : String → Option String)
    (cards : List ReviewCard) (now : ℤ) (appid : ℕ)
    (feed : String → Option FeedReview) :
    parseCards resolver cards =
      parseCards resolver (cards.filter
        (fun c => c.hasRecommendedText && (resolveCard resolver c.ref).isSome)) ∧
    ∀ row ∈ mergeReviews now appid (parseCards resolver cards) feed,
      ∃ c ∈ cards, c.hasRecommendedText = true ∧
        resolveCard resolver c.ref = some row.author_steamid := by
  constructor
  · induction cards with
    | nil => rfl
    | cons c cards ih =>
      cases hrec : c.hasRecommendedText with
      | false =>
        rw [List.filter_cons, if_neg (by simp [hrec]),
          parseCards_cons_skip resolver c cards (Or.inl hrec)]
        exact ih
      | true =>
        cases hres : resolveCard resolver c.ref with
        | none =>
          rw [List.filter_cons, if_neg (by simp [hrec, hres]),
            parseCards_cons_skip resolver c cards (Or.inr hres)]
          exact ih
        | some sid =>
          rw [List.filter_cons, if_pos (by simp [hrec, hres]),
            parseCards_cons_keep resolver c cards sid hrec hres,
            parseCards_cons_keep resolver c (cards.filter _) sid hrec hres, ih]
  · intro row hrow
    unfold mergeReviews at hrow
    obtain ⟨s, hs, rfl⟩ := List.mem_map.1 hrow
    unfold parseCards at hs
    obtain ⟨c, hc, hfc⟩ := List.mem_filterMap.1 hs
    cases hrec : c.hasRecommendedText with
    | false => simp [hrec] at hfc
    | true =>
      cases hres : resolveCard resolver c.ref with
      | none => simp [hrec, hres] at hfc
      | some sid =>
        simp only [hrec, Bool.not_true, Bool.false_eq_true, if_false, hres,
          Option.some.injEq] at hfc
        refine ⟨c, hc, hrec, ?_⟩
        rw [hres, ← hfc]
        rfl

/-- Witness for C9: the card with unresolvable alias player_x produces no
scraped record and no merged review. -/
theorem unresolved_dropped_witness :
    parseCards failResolver [cardX] = [] ∧
    mergeReviews 100 1901370 (parseCards failResolver [cardX]) noFeed = [] := by
  have h := (unresolved_dropped failResolver [cardX] 100 1901370 noFeed).1
  have h2 : parseCards failResolver ([cardX].filter
      (fun c => c.hasRecommendedText && (resolveCard failResolver c.ref).isSome)) = [] := by
    decide
  constructor
  · exact h.trans h2
  · rw [h.trans h2]
    rfl

theorem mapM_option_eq_none_iff {α β : Type} (f : α → Option β) (l : List α) :
    l.mapM f = none ↔ ∃ a ∈ l, f a = none := by
  induction l with
  | nil =>
    rw [List.mapM_nil]
    simp
  | cons a l ih =>
    rw [List.mapM_cons]
    cases hfa : f a with
    | none => simp [hfa]
    | some b =>
      simp only [hfa, Option.bind_eq_bind, Option.some_bind]
      cases hm : l.mapM f with
      | none => simp [hm, ih.1 hm]
      | some bs =>
        simp only [hm, Option.some_bind]
        constructor
        · intro h
          cases h
        · rintro ⟨a2, ha2, hfa2⟩
          rw [List.mem_cons] at ha2
          rcases ha2 with rfl | ha2
          · rw [hfa2] at hfa
            cases hfa
          · have h3 : l.mapM f = none := ih.2 ⟨a2, ha2, hfa2⟩
            rw [h3] at hm
            cases hm

theorem mapM_option_length {α β : Type} (f : α → Option β) (l : List α) (l2 : List β)
    (h : l.mapM f = some l2) : l2.length = l.length := by
  induction l generalizing l2 with
  | nil =>
    rw [List.mapM_nil] at h
    cases h
    rfl
  | cons a l ih =>
    rw [List.mapM_cons] at h
    cases hfa : f a with
    | none =>
      rw [hfa] at h
      cases h
    | some b =>
      rw [hfa] at h
      cases hm : l.mapM f with
      | none =>
        rw [hm] at h
        cases h
      | some bs =>
        rw [hm] at h
        simp only [Option.bind_eq_bind, Option.some_bind, Option.pure_def,
          Option.some.injEq] at h
        rw [← h]
        simp [ih bs hm]

theorem chunkText_default_some (text : List Char) :
    ∃ l, chunkText text 100 20 = some l := by
  unfold chunkText chunkTextFromNormalized
  by_cases h : ((splitIntoSentences (normalizeText text)).all
      (fun s => decide (((pySplitWs s).length : ℤ) ≤ (100 : ℤ)))) = true
  · rw [if_pos h]
    exact ⟨_, rfl⟩
  · rw [if_neg h, if_neg (by norm_num), if_neg (by norm_num)]
    exact ⟨_, rfl⟩

/-- Counterexample to claim C2 as stated: the code never validates
confidence (or category); only constructing the sentiment enum can
raise.  A classifier verdict with confidence = 1.5 for chunk "B." of the
3-chunk review "A. B. C." is accepted: all three chunk rows are
persisted, the saved counter (not the failed counter) is incremented,
and the run then processes the next review normally. -/
theorem classify_validation_claim_cex :
    (overconfidentClassifier (String.toList "B.")).confidence = mkRat 3 2 ∧
    ¬ ((overconfidentClassifier (String.toList "B.")).confidence ≤ 1) ∧
    chunkText (String.toList "A. B. C.") 100 20 =
      some [String.toList "A.", String.toList "B.", String.toList "C."] ∧
    runReviews overconfidentClassifier { saved := 0, failed := 0 }
      [(String.toList "A. B. C.", true), (String.toList "Nice.", true)] =
      ({ saved := 2, failed := 0 }, [3, 1]) := by decide

/-- Claim C2 (amended): only the sentiment value of a classifier verdict
is validated — a value outside the three-valued enum raises while the
review's results are being built, so nothing is persisted for that
review, the failed counter increments, and the loop continues; when
every chunk's sentiment is valid, the verdicts are accepted regardless
of their confidence or category values, one chunk row per chunk is
persisted and the saved counter increments. -/
theorem classify_validation (classifier : List Char → VerdictJson)
    (counters : Counters) (text : List Char) (dbOk : Bool) :
    ((∃ c ∈ (chunkText text 100 20).getD [],
        sentimentOfString (classifier c).sentiment = none) →
      processReview classifier counters text dbOk =
        ({ counters with failed := counters.failed + 1 }, 0)) ∧
    ((∀ c ∈ (chunkText text 100 20).getD [],
        (sentimentOfString (classifier c).sentiment).isSome = true) →
      processReview classifier counters text true =
        ({ counters with saved := counters.saved + 1 },
          ((chunkText text 100 20).getD []).length)) := by
  obtain ⟨chunks, hch⟩ := chunkText_default_some text
  rw [hch]
  have hres : analyzeTextResults text classifier =
      chunks.mapM (fun c => analyzeChunk c (classifier c)) := by
    unfold analyzeTextResults
    rw [hch]
    rfl
  constructor
  · rintro ⟨c, hc, hnone⟩
    have hm : chunks.mapM (fun c => analyzeChunk c (classifier c)) = none := by
      refine (mapM_option_eq_none_iff _ _).2 ⟨c, by simpa using hc, ?_⟩
      unfold analyzeChunk
      rw [hnone]
      rfl
    unfold processReview
    rw [hres, hm]
  · intro hall
    have hne : chunks.mapM (fun c => analyzeChunk c (classifier c)) ≠ none := by
      intro hm
      obtain ⟨c, hc, hfc⟩ := (mapM_option_eq_none_iff _ _).1 hm
      have := hall c (by simpa using hc)
      unfold analyzeChunk at hfc
      cases hs : sentimentOfString (classifier c).sentiment with
      | none =>
        rw [hs] at this
        cases this
      | some st =>
        rw [hs] at hfc
        cases hfc
    cases hm : chunks.mapM (fun c => analyzeChunk c (classifier c)) with
    | none => exact absurd hm hne
    | some results =>
      unfold processReview
      rw [hres, hm]
      simp [mapM_option_length _ _ _ hm]

/-- Witness for amended C2 on the 3-chunk review "A. B. C.": an
out-of-enum sentiment for chunk "B." yields failed = 1 and zero rows;
the confidence-1.5 verdict for the same chunk yields saved = 1 and three
rows. -/
theorem classify_validation_witness :
    (∃ c ∈ (chunkText (String.toList "A. B. C.") 100 20).getD [],
      sentimentOfString (badSentimentClassifier c).sentiment = none) ∧
    processReview badSentimentClassifier { saved := 0, failed := 0 }
      (String.toList "A. B. C.") true = ({ saved := 0, failed := 1 }, 0) ∧
    (∀ c ∈ (chunkText (String.toList "A. B. C.") 100 20).getD [],
      (sentimentOfString (overconfidentClassifier c).sentiment).isSome = true) ∧
    processReview overconfidentClassifier { saved := 0, failed := 0 }
      (String.toList "A. B. C.") true = ({ saved := 1, failed := 0 }, 3) := by
  refine ⟨by decide, ?_, by decide, ?_⟩
  · exact (classify_validation badSentimentClassifier { saved := 0, failed := 0 }
      (String.toList "A. B. C.") true).1 (by decide)
  · exact (classify_validation overconfidentClassifier { saved := 0, failed := 0 }
      (String.toList "A. B. C.") true).2 (by decide)

theorem getLast?_cons_eq {α : Type} (a : α) (l : List α) :
    (a :: l).getLast? =
      (match l.getLast? with | none => some a | some x => some x) := by
  cases l with
  | nil => rfl
  | cons b t =>
    rw [List.getLast?_cons_cons]
    cases h : (b :: t).getLast? with
    | none =>
      rw [List.getLast?_eq_none_iff] at h
      cases h
    | some x => rfl

theorem dictLookup_dictInsert (k k2 : String) (v : FeedReview)
    (d : List (String × FeedReview)) :
    dictLookup k (dictInsert k2 v d) = if k2 = k then some v else dictLookup k d := by
  induction d with
  | nil => rfl
  | cons kv d ih =>
    obtain ⟨k3, v3⟩ := kv
    unfold dictInsert
    by_cases h1 : k3 = k2
    · rw [if_pos h1]
      unfold dictLookup
      subst h1
      by_cases h2 : k3 = k
      · simp [h2]
      · simp [h2]
    · rw [if_neg h1]
      unfold dictLookup
      by_cases h3 : k3 = k
      · have h4 : ¬ k2 = k := fun he => h1 (h3.trans he.symm)
        rw [if_pos h3, if_neg h4, if_pos h3]
      · rw [if_neg h3, ih, if_neg h3]

theorem dictLookup_addPage (k : String) (es : List FeedReview)
    (d : List (String × FeedReview)) :
    dictLookup k (addPageReviews d es) =
      (match lastKeyed k es with
       | some e => some e
       | none => dictLookup k d) := by
  induction es generalizing d with
  | nil => rfl
  | cons e es ih =>
    have hstep : addPageReviews d (e :: es) =
        addPageReviews (match feedKeyOf e with
          | some sid => dictInsert sid e d
          | none => d) es := rfl
    have hlk : lastKeyed k (e :: es) =
        (match lastKeyed k es with
         | some x => some x
         | none => if feedKeyOf e = some k then some e else none) := by
      unfold lastKeyed
      rw [List.filter_cons]
      by_cases hq : feedKeyOf e = some k
      · rw [if_pos (by simp [hq]), getLast?_cons_eq, if_pos hq]
        cases h2 : (es.filter (fun e => decide (feedKeyOf e = some k))).getLast? <;> rfl
      · rw [if_neg (by simp [hq]), if_neg hq]
        cases h2 : (es.filter (fun e => decide (feedKeyOf e = some k))).getLast? <;> rfl
    rw [hstep, ih, hlk]
    cases h2 : lastKeyed k es with
    | some x => rfl
    | none =>
      cases hq : feedKeyOf e with
      | none => rfl
      | some sid =>
        by_cases hs : sid = k
        · subst hs
          rw [dictLookup_dictInsert]
          simp
        · rw [dictLookup_dictInsert, if_neg hs]
          simp [hs]

/-- Claim C7: for any feed behaving as two well-formed non-empty pages
(reached from the start sentinel via fresh cursors) followed by an empty
page, the pagination loop appends both pages' records, advances the
cursor twice, stops at the empty page regardless of any remaining fuel,
and returns the union of the two pages' records keyed by author
identity, the later page (and within a page the later record) winning
for a re-listed identity. -/
theorem fetch_two_pages (feed : String → ApiResponse) (r1 r2 r3 : ApiResponse)
    (c1 c2 : String)
    (h1 : feed "*" = r1) (h2 : feed c1 = r2) (h3 : feed c2 = r3)
    (hr1 : r1.ok = true ∧ r1.success = true ∧ r1.reviews ≠ [] ∧ r1.cursor = some c1)
    (hc1 : c1 ≠ "" ∧ c1 ≠ "*")
    (hr2 : r2.ok = true ∧ r2.success = true ∧ r2.reviews ≠ [] ∧ r2.cursor = some c2)
    (hc2 : c2 ≠ "" ∧ c2 ≠ "*")
    (hr3 : r3.ok = true ∧ r3.success = true ∧ r3.reviews = [])
    (fuel : ℕ) (hf : 3 ≤ fuel) :
    fetchPages feed fuel "*" [] =
      addPageReviews (addPageReviews [] r1.reviews) r2.reviews ∧
    ∀ k, dictLookup k (fetchPages feed fuel "*" []) =
      (match lastKeyed k r2.reviews with
       | some e => some e
       | none => lastKeyed k r1.reviews) := by
  obtain ⟨m, rfl⟩ : ∃ m, fuel = m + 3 := ⟨fuel - 3, by omega⟩
  have step1 : fetchPages feed (m + 3) "*" [] =
      fetchPages feed (m + 2) c1 (addPageReviews [] r1.reviews) := by
    show fetchPages feed ((m + 2) + 1) "*" [] = _
    rw [fetchPages, h1]
    rw [if_neg (by simp [hr1.1]), if_neg (by simp [hr1.2.1]),
      if_neg (by simp [List.isEmpty_eq_false.2 hr1.2.2.1]), hr1.2.2.2]
    simp [hc1.1, hc1.2]
  have step2 : fetchPages feed (m + 2) c1 (addPageReviews [] r1.reviews) =
      fetchPages feed (m + 1) c2
        (addPageReviews (addPageReviews [] r1.reviews) r2.reviews) := by
    show fetchPages feed ((m + 1) + 1) c1 _ = _
    rw [fetchPages, h2]
    rw [if_neg (by simp [hr2.1]), if_neg (by simp [hr2.2.1]),
      if_neg (by simp [List.isEmpty_eq_false.2 hr2.2.2.1]), hr2.2.2.2]
    simp [hc2.1, hc2.2]
  have step3 : fetchPages feed (m + 1) c2
      (addPageReviews (addPageReviews [] r1.reviews) r2.reviews) =
      addPageReviews (addPageReviews [] r1.reviews) r2.reviews := by
    show fetchPages feed (m + 1) c2 _ = _
    rw [fetchPages, h3]
    rw [if_neg (by simp [hr3.1]), if_neg (by simp [hr3.2.1]),
      if_pos (by simp [hr3.2.2])]
  have hall := (step1.trans step2).trans step3
  refine ⟨hall, fun k => ?_⟩
  rw [hall, dictLookup_addPage, dictLookup_addPage]
  cases lastKeyed k r2.reviews with
  | some e => rfl
  | none =>
    cases lastKeyed k r1.reviews with
    | some e => rfl
    | none => rfl

/-- Witness for C7: the mock feed with pages pageOne, pageTwo, pageEmpty;
the fetch returns records for identities 111 and 222, the second page's
record winning for the re-listed identity 111. -/
theorem fetch_two_pages_witness :
    fetchPages mockFeed 10 "*" [] =
      addPageReviews (addPageReviews [] pageOne.reviews) pageTwo.reviews ∧
    dictLookup "111" (fetchPages mockFeed 10 "*" []) = some feedEntry3 ∧
    dictLookup "222" (fetchPages mockFeed 10 "*" []) = some feedEntry2 := by
  have h := fetch_two_pages mockFeed pageOne pageTwo pageEmpty "c1" "c2"
    rfl rfl rfl (by decide) (by decide) (by decide) (by decide) (by decide)
    10 (by decide)
  refine ⟨h.1, ?_, ?_⟩
  · rw [h.2 "111"]
    decide
  · rw [h.2 "222"]
    decide
